import Mathlib

/-!
Verification of the material / aggregate-geometry core of the
isin-izleme-basit path tracer.  The source files under scrutiny are
`include/custom/nihai/hittables.hpp` and `include/custom/nihai/material.hpp`.
The vector, ray, hit-record, texture, pdf and abstract-hittable types live in
headers that are not part of the excerpt; those are modelled from the spec and
marked as such.  C++ `double` arithmetic is idealised as real arithmetic.
-/

/-- Modelled from the spec: the 3-component vector type (`vec3` / `point3` /
`color` from the missing vector header); doubles idealised as reals. -/
structure Vec3 where
  x : ℝ
  y : ℝ
  z : ℝ

noncomputable instance : Add Vec3 :=
  ⟨fun a b => ⟨a.x + b.x, a.y + b.y, a.z + b.z⟩⟩

noncomputable instance : Sub Vec3 :=
  ⟨fun a b => ⟨a.x - b.x, a.y - b.y, a.z - b.z⟩⟩

noncomputable instance : Neg Vec3 :=
  ⟨fun a => ⟨-a.x, -a.y, -a.z⟩⟩

noncomputable instance : SMul ℝ Vec3 :=
  ⟨fun c a => ⟨c * a.x, c * a.y, c * a.z⟩⟩

instance : Zero Vec3 := ⟨⟨0, 0, 0⟩⟩

/-- Modelled from the spec: the dot product of the missing vector header. -/
noncomputable def dot (a b : Vec3) : ℝ :=
  a.x * b.x + a.y * b.y + a.z * b.z

/-- Modelled from the spec: the Euclidean length of a vector. -/
noncomputable def length (v : Vec3) : ℝ :=
  Real.sqrt (dot v v)

/-- Modelled from the spec: `to_unit` divides a vector by its length. -/
noncomputable def to_unit (v : Vec3) : Vec3 :=
  (1 / length v) • v

/-- Modelled from the spec: `reflect(d, n) = d - 2 * dot(d, n) * n`. -/
noncomputable def reflect (d n : Vec3) : Vec3 :=
  d - (2 * dot d n) • n

/-- Modelled from the spec: `refract(d, n, eta) =
eta * (d - cos_theta * n) - sqrt(1 - eta^2 * (1 - cos_theta^2)) * n`, with
`cos_theta = dot(-d, n)` (Snell refraction from the missing commons header). -/
noncomputable def refract (d n : Vec3) (eta : ℝ) : Vec3 :=
  (eta • (d - dot (-d) n • n)) -
    Real.sqrt (1 - eta ^ (2 : ℕ) * (1 - dot (-d) n ^ (2 : ℕ))) • n

/-- Modelled from the spec: a ray has an origin point, a direction vector and
a time scalar (`Ray` from the missing ray header). -/
structure Ray where
  origin : Vec3
  dir : Vec3
  time : ℝ

/-- Modelled from the spec: the surface-interaction record (`HitRecord` from
the missing hittable header): intersection point, oriented unit normal, hit
distance, texture coordinates and the front-face flag.  The material pointer
is irrelevant to the claims and omitted. -/
structure HitRecord where
  point : Vec3
  normal : Vec3
  dist : ℝ
  u : ℝ
  v : ℝ
  front_face : Bool

/-- Modelled from the spec: a `Texture` is its `value(u, v, point) -> color`
function (the missing texture header). -/
structure Texture where
  value : ℝ → ℝ → Vec3 → Vec3

/-- Modelled from the spec: the Pdf variants reachable from the material code
under src (only `CosinePdf` is ever constructed there, in `Lambertian`). -/
inductive PdfModel where
  | cosinePdf (normal : Vec3)

/-- Modelled from the spec: `CosinePdf(normal).value(d) =
max(0, dot(unit(d), normal)) / pi` (from the missing pdf header). -/
noncomputable def cosinePdfValue (normal d : Vec3) : ℝ :=
  max 0 (dot (to_unit d) normal) / Real.pi

/-- Evaluation of a modelled Pdf variant, delegating to `cosinePdfValue`. -/
noncomputable def PdfModel.value : PdfModel → Vec3 → ℝ
  | PdfModel.cosinePdf n, d => cosinePdfValue n d

/-- `ScatterRecord` from material.hpp: outgoing ray, specular flag,
attenuation color, and the (possibly null) shared Pdf pointer. -/
structure ScatterRecord where
  r_out : Ray
  is_specular : Bool
  attenuation : Vec3
  pdf_ptr : Option PdfModel

/-- Modelled from the spec: the `Hittable` virtual interface from the missing
hittable header.  `hit` takes the ray, the distance range and the in-out
record and returns the success flag together with the possibly updated
record; `pdf_value origin dir` and `random origin` are as in the spec. -/
structure Hittable where
  hit : Ray → ℝ → ℝ → HitRecord → Bool × HitRecord
  pdf_value : Vec3 → Vec3 → ℝ
  random : Vec3 → Vec3

/-- One iteration of the loop in `HittableList::hit` (hittables.hpp lines
26-33).  The state is `(temp, hit_, current_closest, record)`.  The member is
queried with the unchanged `dist_max` bound; on success the flag is set,
`current_closest` is updated (and never read) and `record` is overwritten
with `temp`. -/
noncomputable def HittableList.hitStep (r : Ray) (dist_min dist_max : ℝ)
    (st : HitRecord × Bool × ℝ × HitRecord) (object : Hittable) :
    HitRecord × Bool × ℝ × HitRecord :=
  let res := object.hit r dist_min dist_max st.1
  if res.1 then (res.2, true, res.2.dist, res.2)
  else (res.2, st.2.1, st.2.2.1, st.2.2.2)

/-- `HittableList::hit` (hittables.hpp lines 19-35).  `temp0` models the
default-constructed local `HitRecord temp` (its contents are indeterminate in
the C++); `record` is the caller's in-out record.  Returns the final flag and
the final value of `record`. -/
noncomputable def HittableList.hit (objects : List Hittable) (r : Ray)
    (dist_min dist_max : ℝ) (temp0 record : HitRecord) : Bool × HitRecord :=
  ((List.foldl (HittableList.hitStep r dist_min dist_max)
      (temp0, false, dist_max, record) objects).2.1,
   (List.foldl (HittableList.hitStep r dist_min dist_max)
      (temp0, false, dist_max, record) objects).2.2.2)

/-- `HittableList::pdf_value` (hittables.hpp lines 52-61): accumulates
`weight * obj->pdf_value(o, v)` with `weight = 1.0 / objects.size()`. -/
noncomputable def HittableList.pdf_value (objects : List Hittable)
    (o v : Vec3) : ℝ :=
  List.foldl
    (fun s obj => s + (1 / (objects.length : ℝ)) * obj.pdf_value o v)
    0 objects

/-- `Material::scatter` (material.hpp lines 22-25): the base class never
scatters and leaves the out-parameter untouched. -/
def Material.scatter (ray_in : Ray) (record : HitRecord)
    (sre : ScatterRecord) : Bool × ScatterRecord :=
  (false, sre)

/-- `Dielectric` (material.hpp lines 50-95): a refractive index. -/
structure Dielectric where
  ref_idx : ℝ

/-- `Dielectric::fresnelSchlick` (material.hpp lines 71-76). -/
noncomputable def Dielectric.fresnelSchlick (costheta ridx : ℝ) : ℝ :=
  ((1 - ridx) / (1 + ridx)) * ((1 - ridx) / (1 + ridx)) +
    (1 - ((1 - ridx) / (1 + ridx)) * ((1 - ridx) / (1 + ridx))) *
      (1 - costheta) ^ (5 : ℕ)

/-- `Dielectric::fresnelCT` (material.hpp lines 57-70). -/
noncomputable def Dielectric.fresnelCT (costheta ridx : ℝ) : ℝ :=
  let eta := (1 + Real.sqrt ridx) / (1 - Real.sqrt ridx)
  let g := Real.sqrt (eta ^ (2 : ℕ) + costheta ^ (2 : ℕ) - 1)
  let g_c := g - costheta
  let gplusc := g + costheta
  let gplus_cc := (gplusc * costheta) - 1
  let g_cc := (g_c * costheta) + 1
  ((1 / 2) * (g_c / gplusc) ^ (2 : ℕ)) * (1 + (gplus_cc / g_cc) ^ (2 : ℕ))

/-- `Dielectric::get_fresnel` (material.hpp lines 77-92): choice 0 (the
default used by `scatter`) is Schlick, 1 is Cook-Torrance, anything else
falls back to Schlick. -/
noncomputable def Dielectric.get_fresnel (costheta ridx : ℝ)
    (choice : ℤ) : ℝ :=
  if choice = 0 then Dielectric.fresnelSchlick costheta ridx
  else if choice = 1 then Dielectric.fresnelCT costheta ridx
  else Dielectric.fresnelSchlick costheta ridx

/-- The local `eta_over` of `Dielectric::scatter` (material.hpp line 106). -/
noncomputable def dielectric_eta_over (m : Dielectric)
    (record : HitRecord) : ℝ :=
  if record.front_face then 1 / m.ref_idx else m.ref_idx

/-- The local `costheta` of `Dielectric::scatter` (material.hpp line 107). -/
noncomputable def dielectric_costheta (r_in : Ray) (record : HitRecord) : ℝ :=
  min (dot ((-1 : ℝ) • to_unit r_in.dir) record.normal) 1

/-- The local `sintheta` of `Dielectric::scatter` (material.hpp line 108). -/
noncomputable def dielectric_sintheta (r_in : Ray) (record : HitRecord) : ℝ :=
  Real.sqrt (1 - dielectric_costheta r_in record *
    dielectric_costheta r_in record)

/-- `Dielectric::scatter` (material.hpp lines 97-126).  `rnd` models the
`random_double()` draw.  All paths set `is_specular = true`,
`pdf_ptr = nullptr`, `attenuation = color(1.0)` and return true; the branch
on `eta_over * sintheta > 1` reflects unconditionally, otherwise the Fresnel
test decides between reflection and refraction. -/
noncomputable def Dielectric.scatter (m : Dielectric) (r_in : Ray)
    (record : HitRecord) (srec : ScatterRecord) (rnd : ℝ) :
    Bool × ScatterRecord :=
  if dielectric_eta_over m record * dielectric_sintheta r_in record > 1 then
    (true,
     { srec with
       is_specular := true, pdf_ptr := none, attenuation := ⟨1, 1, 1⟩,
       r_out := ⟨record.point, reflect (to_unit r_in.dir) record.normal,
                 r_in.time⟩ })
  else if rnd < Dielectric.get_fresnel (dielectric_costheta r_in record)
      (dielectric_eta_over m record) 0 then
    (true,
     { srec with
       is_specular := true, pdf_ptr := none, attenuation := ⟨1, 1, 1⟩,
       r_out := ⟨record.point, reflect (to_unit r_in.dir) record.normal,
                 r_in.time⟩ })
  else
    (true,
     { srec with
       is_specular := true, pdf_ptr := none, attenuation := ⟨1, 1, 1⟩,
       r_out := ⟨record.point,
                 refract (to_unit r_in.dir) record.normal
                   (dielectric_eta_over m record),
                 r_in.time⟩ })

/-- `DiffuseLight` (material.hpp lines 134-151): an emission texture. -/
structure DiffuseLight where
  emit : Texture

/-- `DiffuseLight::emitted` (material.hpp lines 145-148): the texture value
when the hit is front-facing, `color(0)` otherwise. -/
noncomputable def DiffuseLight.emitted (m : DiffuseLight) (r_in : Ray)
    (record : HitRecord) (u v : ℝ) (p : Vec3) : Vec3 :=
  if record.front_face then m.emit.value u v p else ⟨0, 0, 0⟩

/-- `DiffuseLight` does not override `scatter`, so it inherits the base
`Material::scatter` (material.hpp lines 22-25). -/
def DiffuseLight.scatter (m : DiffuseLight) (ray_in : Ray)
    (record : HitRecord) (sre : ScatterRecord) : Bool × ScatterRecord :=
  Material.scatter ray_in record sre

/-- `Isotropic` (material.hpp lines 153-172): an albedo texture. -/
structure Isotropic where
  albedo : Texture

/-- `Isotropic::scatter` (material.hpp lines 159-171).  `sampled` models the
`random_in_unit_sphere()` draw.  Always returns true; the scattered ray is
`Ray(rec.point, sampled, r_in.time)` and the attenuation is the albedo
value. -/
noncomputable def Isotropic.scatter (m : Isotropic) (r_in : Ray)
    (rec : HitRecord) (sampled : Vec3) : Bool × Vec3 × Ray :=
  (true, m.albedo.value rec.u rec.v rec.point,
   ⟨rec.point, sampled, r_in.time⟩)

/-- Modelled from the spec: the set of values `random_in_unit_sphere` (from
the missing commons header) can produce — points of the open unit ball (the
spec's Metal section calls it `random_point_in_unit_sphere()`). -/
noncomputable def in_unit_sphere (p : Vec3) : Prop :=
  dot p p < 1

/-- `Lambertian` (material.hpp lines 174-225): an albedo texture. -/
structure Lambertian where
  albedo : Texture

/-- The `ScatterRecord` overload of `Lambertian::scatter` (material.hpp
lines 190-198): not specular, attenuation from the albedo, and a fresh
`CosinePdf(record.normal)`; `r_out` is left untouched. -/
noncomputable def Lambertian.scatter_srec (m : Lambertian) (ray_in : Ray)
    (record : HitRecord) (srec : ScatterRecord) : Bool × ScatterRecord :=
  (true,
   { srec with
     is_specular := false,
     attenuation := m.albedo.value record.u record.v record.point,
     pdf_ptr := some (PdfModel.cosinePdf record.normal) })

/-- The `(attenuation, r_out, pdf)` overload of `Lambertian::scatter`
(material.hpp lines 199-208).  `generated` models the random
`pdf_ptr->generate()` draw used for the outgoing direction; the pdf output is
`pdf_ptr->value(record.normal)` — the cosine pdf evaluated at the normal
itself.  Returns `(true, attenuation, r_out, pdf)`. -/
noncomputable def Lambertian.scatter_pdf (m : Lambertian) (ray_in : Ray)
    (record : HitRecord) (generated : Vec3) : Bool × Vec3 × Ray × ℝ :=
  (true, m.albedo.value record.u record.v record.point,
   ⟨record.point, generated, ray_in.time⟩,
   PdfModel.value (PdfModel.cosinePdf record.normal) record.normal)

/-- `Lambertian::pdf_scattering` (material.hpp lines 220-225): zero when
`dot(normal, unit(r_out.dir))` is negative, `costheta / PI` otherwise. -/
noncomputable def Lambertian.pdf_scattering (m : Lambertian) (r_in : Ray)
    (rec : HitRecord) (r_out : Ray) : ℝ :=
  if dot rec.normal (to_unit r_out.dir) < 0 then 0
  else dot rec.normal (to_unit r_out.dir) / Real.pi

/-- `Metal` (material.hpp lines 227-238): albedo color and roughness. -/
structure Metal where
  albedo : Vec3
  roughness : ℝ

/-- The `Metal` constructor (material.hpp lines 234-235): stores
`(rough < 1) ? rough : 1` as the roughness. -/
noncomputable def Metal.make (alb : Vec3) (rough : ℝ) : Metal :=
  ⟨alb, if rough < 1 then rough else 1⟩

/-- `Metal::scatter` (material.hpp lines 239-250).  `sampled` models the
`random_in_unit_sphere()` draw.  The outgoing direction is the reflection of
the unit incoming direction perturbed by `roughness * sampled`. -/
noncomputable def Metal.scatter (m : Metal) (ray_in : Ray)
    (record : HitRecord) (sampled : Vec3) : Bool × ScatterRecord :=
  (true,
   { r_out := ⟨record.point,
               reflect (to_unit ray_in.dir) record.normal +
                 m.roughness • sampled,
               ray_in.time⟩,
     attenuation := m.albedo, is_specular := true, pdf_ptr := none })

/-- Concrete hit record with a given distance, for tests and witnesses. -/
noncomputable def recAt (d : ℝ) : HitRecord :=
  ⟨⟨0, 0, 0⟩, ⟨0, 0, 1⟩, d, 0, 0, false⟩

/-- A member whose `hit` always succeeds and writes the record at
distance `d`; used as a concrete `Hittable` in tests and witnesses. -/
noncomputable def hitAt (d : ℝ) : Hittable :=
  ⟨fun _ _ _ _ => (true, recAt d), fun _ _ => 0, fun _ => ⟨0, 0, 0⟩⟩

/-- A member whose `hit` always fails but still scribbles on the temp
record; used as a concrete `Hittable` in tests and witnesses. -/
noncomputable def missAt (d : ℝ) : Hittable :=
  ⟨fun _ _ _ _ => (false, recAt d), fun _ _ => 0, fun _ => ⟨0, 0, 0⟩⟩

/-- A member reporting a constant pdf density `p`. -/
noncomputable def constPdf (p : ℝ) : Hittable :=
  ⟨fun _ _ _ rec => (false, rec), fun _ _ => p, fun _ => ⟨0, 0, 0⟩⟩

/-- The x-axis unit ray used in concrete evaluations. -/
noncomputable def rayU : Ray :=
  ⟨⟨0, 0, 0⟩, ⟨1, 0, 0⟩, 0⟩

/-- A back-face hit record with normal along the y-axis, orthogonal to
`rayU`; for the dielectric witness it yields `eta_over * sintheta = 2`. -/
noncomputable def recTIR : HitRecord :=
  ⟨⟨0, 0, 0⟩, ⟨0, 1, 0⟩, 0, 0, 0, false⟩

/-- A hit record whose normal is the z-axis unit vector. -/
noncomputable def recN : HitRecord :=
  ⟨⟨0, 0, 0⟩, ⟨0, 0, 1⟩, 0, 0, 0, true⟩

/-- A constant white texture. -/
noncomputable def whiteTex : Texture :=
  ⟨fun _ _ _ => ⟨1, 1, 1⟩⟩

/-- An arbitrary scatter record used as the in-out argument in witnesses. -/
noncomputable def srec0 : ScatterRecord :=
  ⟨⟨⟨0, 0, 0⟩, ⟨0, 0, 1⟩, 0⟩, false, ⟨0, 0, 0⟩, none⟩

/-! Helper lemmas about the vector operations. -/

theorem Vec3.add_def (a b : Vec3) :
    a + b = ⟨a.x + b.x, a.y + b.y, a.z + b.z⟩ := rfl

theorem Vec3.smul_def (c : ℝ) (v : Vec3) :
    c • v = ⟨c * v.x, c * v.y, c * v.z⟩ := rfl

theorem Vec3.sub_def (a b : Vec3) :
    a - b = ⟨a.x - b.x, a.y - b.y, a.z - b.z⟩ := rfl

theorem Vec3.neg_def (a : Vec3) : -a = ⟨-a.x, -a.y, -a.z⟩ := rfl

theorem dot_smul_left (c : ℝ) (a b : Vec3) :
    dot (c • a) b = c * dot a b := by
  simp only [dot, Vec3.smul_def]
  ring

theorem smul_zero_vec (v : Vec3) : (0 : ℝ) • v = ⟨0, 0, 0⟩ := by
  simp [Vec3.smul_def]

theorem add_zero_vec (v : Vec3) : v + (⟨0, 0, 0⟩ : Vec3) = v := by
  simp [Vec3.add_def]

/-- Accumulating `s + w * f obj` over a list starting at `a` yields
`a + w * sum (map f l)`. -/
theorem foldl_add_weighted (w : ℝ) (f : Hittable → ℝ) :
    ∀ (l : List Hittable) (a : ℝ),
      List.foldl (fun s obj => s + w * f obj) a l =
        a + w * (List.map f l).sum := by
  intro l
  induction l with
  | nil => intro a; simp
  | cons hd tl ih =>
      intro a
      rw [List.foldl_cons, ih (a + w * f hd), List.map_cons, List.sum_cons]
      ring

/-- If the fold of `HittableList.hitStep` ends with the flag false, the
caller record component of the state was never overwritten and the flag was
false throughout. -/
theorem hitStep_foldl_miss (r : Ray) (dmin dmax : ℝ) :
    ∀ (l : List Hittable) (st : HitRecord × Bool × ℝ × HitRecord),
      (List.foldl (HittableList.hitStep r dmin dmax) st l).2.1 = false →
      (List.foldl (HittableList.hitStep r dmin dmax) st l).2.2.2 = st.2.2.2 ∧
        st.2.1 = false := by
  intro l
  induction l with
  | nil => intro st h; exact ⟨rfl, h⟩
  | cons a t ih =>
      intro st h
      rw [List.foldl_cons] at h
      obtain ⟨h1, h2⟩ := ih (HittableList.hitStep r dmin dmax st a) h
      unfold HittableList.hitStep at h1 h2
      by_cases hb : (a.hit r dmin dmax st.1).1 = true
      · rw [if_pos hb] at h2
        exact absurd h2 (by simp)
      · rw [if_neg hb] at h1 h2
        rw [List.foldl_cons]
        refine ⟨?_, h2⟩
        unfold HittableList.hitStep
        rw [if_neg hb]
        exact h1

/-- C1: the claim says `HittableList::hit` returns the closest intersection
in `[dist_min, dist_max]`.  On the list `[hitAt 1, hitAt 2]`, both members
succeed in the range `[0, 10]` and report distances 1 and 2, yet the record
returned carries distance 2 — the last member in list order, not the closest
(the loop re-queries every member with the original `dist_max` and the
`current_closest` variable is never read). -/
theorem hittableList_hit_returns_last_hit_not_closest :
    ((hitAt 1).hit rayU 0 10 (recAt 0)).1 = true ∧
    ((hitAt 1).hit rayU 0 10 (recAt 0)).2.dist = 1 ∧
    ((hitAt 2).hit rayU 0 10 (recAt 0)).1 = true ∧
    ((hitAt 2).hit rayU 0 10 (recAt 0)).2.dist = 2 ∧
    (HittableList.hit [hitAt 1, hitAt 2] rayU 0 10 (recAt 0) (recAt 0)).1 =
      true ∧
    (HittableList.hit [hitAt 1, hitAt 2] rayU 0 10 (recAt 0) (recAt 0)).2.dist
      = 2 ∧
    (1 : ℝ) < 2 :=
  ⟨rfl, rfl, rfl, rfl, rfl, rfl, by norm_num⟩

/-- C9: when `HittableList::hit` returns false, the caller's record argument
is returned exactly as it came in — the assignment `record = temp` only runs
on a successful member hit, so no partial intersection data leaks out on a
miss. -/
theorem hittableList_hit_miss_preserves_record (objects : List Hittable)
    (r : Ray) (dmin dmax : ℝ) (temp0 record : HitRecord)
    (h : (HittableList.hit objects r dmin dmax temp0 record).1 = false) :
    (HittableList.hit objects r dmin dmax temp0 record).2 = record :=
  (hitStep_foldl_miss r dmin dmax objects (temp0, false, dmax, record) h).1

/-- Witness for C9: a one-member list whose member misses (while scribbling
on the temp record) leaves the caller's record `recAt 7` unchanged. -/
theorem hittableList_hit_miss_preserves_record_witness :
    (HittableList.hit [missAt 5] rayU 0 10 (recAt 0) (recAt 7)).2 = recAt 7 :=
  hittableList_hit_miss_preserves_record [missAt 5] rayU 0 10 (recAt 0)
    (recAt 7) rfl

/-- C3: `HittableList::pdf_value` is the unweighted arithmetic mean of the
members' own `pdf_value` results: `(1/n) * sum`, and for a two-member list
with densities `p1, p2` it is exactly `(p1 + p2) / 2`. -/
theorem hittableList_pdf_value_is_mean (objects : List Hittable) (o v : Vec3)
    (h : objects ≠ []) :
    HittableList.pdf_value objects o v =
      (1 / (objects.length : ℝ)) *
        (List.map (fun m => m.pdf_value o v) objects).sum ∧
    ∀ m1 m2 : Hittable,
      HittableList.pdf_value [m1, m2] o v =
        (m1.pdf_value o v + m2.pdf_value o v) / 2 := by
  constructor
  · unfold HittableList.pdf_value
    rw [foldl_add_weighted (1 / (objects.length : ℝ))
      (fun m => m.pdf_value o v) objects 0]
    ring
  · intro m1 m2
    unfold HittableList.pdf_value
    rw [foldl_add_weighted (1 / (([m1, m2] : List Hittable).length : ℝ))
      (fun m => m.pdf_value o v) [m1, m2] 0]
    simp
    ring

/-- Witness for C3: a two-member list reporting densities 3 and 5 has
`pdf_value = 4 = (3 + 5) / 2`. -/
theorem hittableList_pdf_value_is_mean_witness :
    HittableList.pdf_value [constPdf 3, constPdf 5] ⟨0, 0, 0⟩ ⟨0, 0, 0⟩ = 4 := by
  have h := (hittableList_pdf_value_is_mean [constPdf 3, constPdf 5]
    ⟨0, 0, 0⟩ ⟨0, 0, 0⟩ (by simp)).2 (constPdf 3) (constPdf 5)
  rw [h]
  show ((3 : ℝ) + 5) / 2 = 4
  norm_num

/-- C2: in `Dielectric::scatter`, whenever `eta_over * sintheta > 1` (total
internal reflection) the outgoing direction is
`reflect(unit(d_in), normal)` regardless of the random draw, and the
function returns true. -/
theorem dielectric_scatter_tir_reflects (m : Dielectric) (r_in : Ray)
    (record : HitRecord) (srec : ScatterRecord) (rnd : ℝ)
    (h : dielectric_eta_over m record * dielectric_sintheta r_in record > 1) :
    (Dielectric.scatter m r_in record srec rnd).1 = true ∧
    (Dielectric.scatter m r_in record srec rnd).2.r_out.dir =
      reflect (to_unit r_in.dir) record.normal := by
  unfold Dielectric.scatter
  rw [if_pos h]
  exact ⟨rfl, rfl⟩

/-- Witness for C2: a glass with refractive index 2 hit on the back face by
the x-axis ray with a y-axis normal has `eta_over * sintheta = 2 > 1`, and
the scatter reflects for the concrete random draw 37/100. -/
theorem dielectric_scatter_tir_reflects_witness :
    dielectric_eta_over ⟨2⟩ recTIR * dielectric_sintheta rayU recTIR > 1 ∧
    (Dielectric.scatter ⟨2⟩ rayU recTIR srec0 (37 / 100)).2.r_out.dir =
      reflect (to_unit rayU.dir) recTIR.normal := by
  have hdot : dot ((-1 : ℝ) • to_unit rayU.dir) recTIR.normal = 0 := by
    simp [dot, to_unit, length, Vec3.smul_def, rayU, recTIR]
  have hcost : dielectric_costheta rayU recTIR = 0 := by
    unfold dielectric_costheta
    rw [hdot]
    exact min_eq_left zero_le_one
  have hc : dielectric_eta_over ⟨2⟩ recTIR *
      dielectric_sintheta rayU recTIR > 1 := by
    unfold dielectric_sintheta
    rw [hcost]
    unfold dielectric_eta_over
    norm_num [recTIR, Real.sqrt_one]
  exact ⟨hc,
    (dielectric_scatter_tir_reflects ⟨2⟩ rayU recTIR srec0 (37 / 100) hc).2⟩

/-- C4: a `Metal` built with roughness 0 scatters specularly and its
outgoing direction is exactly `reflect(unit(d_in), normal)` — the random
perturbation term vanishes, for every sphere sample. -/
theorem metal_zero_roughness_mirror (alb : Vec3) (ray_in : Ray)
    (record : HitRecord) (sampled : Vec3) :
    (Metal.scatter (Metal.make alb 0) ray_in record sampled).2.r_out.dir =
      reflect (to_unit ray_in.dir) record.normal ∧
    (Metal.scatter (Metal.make alb 0) ray_in record sampled).2.is_specular =
      true := by
  have hr : (Metal.make alb 0).roughness = 0 := by
    show (if (0 : ℝ) < 1 then (0 : ℝ) else 1) = 0
    rw [if_pos (by norm_num : (0 : ℝ) < 1)]
  constructor
  · show reflect (to_unit ray_in.dir) record.normal +
        (Metal.make alb 0).roughness • sampled =
      reflect (to_unit ray_in.dir) record.normal
    rw [hr, smul_zero_vec, add_zero_vec]
  · rfl

/-- Counterexample for C5: the `Metal` constructor called with roughness -1
stores -1, which does not lie in [0, 1] — only the upper bound is clamped. -/
theorem metal_roughness_not_clamped_below :
    (Metal.make ⟨1, 1, 1⟩ (-1)).roughness = -1 ∧
    ¬ (0 ≤ (Metal.make ⟨1, 1, 1⟩ (-1)).roughness) := by
  have h : (Metal.make ⟨1, 1, 1⟩ (-1)).roughness = -1 := by
    show (if (-1 : ℝ) < 1 then (-1 : ℝ) else 1) = -1
    rw [if_pos (by norm_num : (-1 : ℝ) < 1)]
  refine ⟨h, ?_⟩
  rw [h]
  norm_num

/-- C5 amended: the constructor stores `rough` when `rough < 1` and 1
otherwise; the stored roughness is always at most 1, and it lies in [0, 1]
whenever the argument is non-negative (negative arguments pass through). -/
theorem metal_roughness_clamped_above (alb : Vec3) (rough : ℝ) :
    (Metal.make alb rough).roughness = (if rough < 1 then rough else 1) ∧
    (Metal.make alb rough).roughness ≤ 1 ∧
    (0 ≤ rough →
      0 ≤ (Metal.make alb rough).roughness ∧
        (Metal.make alb rough).roughness ≤ 1) := by
  have hdef : (Metal.make alb rough).roughness =
      (if rough < 1 then rough else 1) := rfl
  refine ⟨hdef, ?_, ?_⟩
  · rw [hdef]
    split_ifs with h
    · exact le_of_lt h
    · exact le_refl 1
  · intro h0
    rw [hdef]
    split_ifs with h
    · exact ⟨h0, le_of_lt h⟩
    · exact ⟨zero_le_one, le_refl 1⟩

/-- Witness for C5 amended: roughness 1/2 is stored and lies in [0, 1]. -/
theorem metal_roughness_clamped_above_witness :
    (0 : ℝ) ≤ 1 / 2 ∧
    (0 ≤ (Metal.make ⟨1, 1, 1⟩ (1 / 2)).roughness ∧
      (Metal.make ⟨1, 1, 1⟩ (1 / 2)).roughness ≤ 1) :=
  ⟨by norm_num,
    (metal_roughness_clamped_above ⟨1, 1, 1⟩ (1 / 2)).2.2 (by norm_num)⟩

/-- C6: `DiffuseLight::emitted` returns the emission texture value on a
front-face hit and the zero color otherwise, and its (inherited) `scatter`
always returns false, leaving the out-parameter untouched. -/
theorem diffuse_light_one_sided_emit_no_scatter (m : DiffuseLight)
    (r_in : Ray) (record : HitRecord) (u v : ℝ) (p : Vec3)
    (sre : ScatterRecord) :
    DiffuseLight.emitted m r_in record u v p =
      (if record.front_face then m.emit.value u v p else ⟨0, 0, 0⟩) ∧
    DiffuseLight.scatter m r_in record sre = (false, sre) :=
  ⟨rfl, rfl⟩

/-- C7: `Lambertian::pdf_scattering` equals
`max(0, dot(normal, unit(r_out.dir))) / pi` and is always non-negative —
zero below the surface, cosine-weighted above. -/
theorem lambertian_pdf_scattering_cosine (m : Lambertian) (r_in : Ray)
    (rec : HitRecord) (r_out : Ray) :
    Lambertian.pdf_scattering m r_in rec r_out =
      max 0 (dot rec.normal (to_unit r_out.dir)) / Real.pi ∧
    0 ≤ Lambertian.pdf_scattering m r_in rec r_out := by
  unfold Lambertian.pdf_scattering
  constructor
  · split_ifs with h
    · rw [max_eq_left (le_of_lt h), zero_div]
    · rw [max_eq_right (not_lt.mp h)]
  · split_ifs with h
    · exact le_refl 0
    · exact div_nonneg (not_lt.mp h) Real.pi_pos.le

/-- Counterexample for C8: the draw `(1/2, 0, 0)` is a legitimate value of
`random_in_unit_sphere` (it lies in the unit ball), and for it the scattered
direction of `Isotropic::scatter` is not unit length: its squared norm is
1/4, not 1.  The code samples the interior of the ball, not the sphere
surface. -/
theorem isotropic_scatter_dir_not_unit :
    in_unit_sphere ⟨1 / 2, 0, 0⟩ ∧
    dot (Isotropic.scatter ⟨whiteTex⟩ rayU (recAt 0) ⟨1 / 2, 0, 0⟩).2.2.dir
        (Isotropic.scatter ⟨whiteTex⟩ rayU (recAt 0) ⟨1 / 2, 0, 0⟩).2.2.dir
      ≠ 1 := by
  constructor
  · show dot ⟨1 / 2, 0, 0⟩ ⟨1 / 2, 0, 0⟩ < 1
    norm_num [dot]
  · show dot (⟨1 / 2, 0, 0⟩ : Vec3) ⟨1 / 2, 0, 0⟩ ≠ 1
    norm_num [dot]

/-- C8 amended: `Isotropic::scatter` always returns true, sets the
attenuation to `albedo.value(u, v, point)`, and the scattered ray is
`Ray(rec.point, s, r_in.time)` where `s` is the `random_in_unit_sphere`
draw — a point of the unit ball, not necessarily unit length. -/
theorem isotropic_scatter_behavior (m : Isotropic) (r_in : Ray)
    (rec : HitRecord) (sampled : Vec3) :
    (Isotropic.scatter m r_in rec sampled).1 = true ∧
    (Isotropic.scatter m r_in rec sampled).2.1 =
      m.albedo.value rec.u rec.v rec.point ∧
    (Isotropic.scatter m r_in rec sampled).2.2 =
      ⟨rec.point, sampled, r_in.time⟩ :=
  ⟨rfl, rfl, rfl⟩

/-- C10: the `(attenuation, r_out, pdf)` overload of `Lambertian::scatter`
sets the pdf output to `CosinePdf(normal).value(normal)` — independent of
the generated outgoing direction — and for a unit normal this is `1/pi`. -/
theorem lambertian_scatter_pdf_at_normal (m : Lambertian) (ray_in : Ray)
    (record : HitRecord) (generated : Vec3)
    (h : dot record.normal record.normal = 1) :
    (Lambertian.scatter_pdf m ray_in record generated).2.2.2 =
      cosinePdfValue record.normal record.normal ∧
    (Lambertian.scatter_pdf m ray_in record generated).2.2.2 =
      1 / Real.pi := by
  refine ⟨rfl, ?_⟩
  show cosinePdfValue record.normal record.normal = 1 / Real.pi
  unfold cosinePdfValue to_unit length
  rw [dot_smul_left, h, Real.sqrt_one]
  have h1 : (1 : ℝ) / 1 * 1 = 1 := by norm_num
  rw [h1, max_eq_right zero_le_one]

/-- Witness for C10: with the unit normal (0, 0, 1) the pdf output is
`1/pi`, whatever direction was generated. -/
theorem lambertian_scatter_pdf_at_normal_witness :
    dot recN.normal recN.normal = 1 ∧
    (Lambertian.scatter_pdf ⟨whiteTex⟩ rayU recN ⟨0, 1, 0⟩).2.2.2 =
      1 / Real.pi := by
  have h : dot recN.normal recN.normal = 1 := by
    norm_num [dot, recN]
  exact ⟨h,
    (lambertian_scatter_pdf_at_normal ⟨whiteTex⟩ rayU recN ⟨0, 1, 0⟩ h).2⟩
